import Mathlib

/-!
Shallow embedding of the DoBot conversational command processor
(`ChatUseCase.processMessage` and its intent handlers, backend
`src/use-cases/chat.use-case.ts`) and of the analytics aggregator
(`ChatRepository.getTasksSummary` / `getUserStats`, backend
`src/repositories/chat.repository.ts`).

Modelling conventions:
* Collaborator calls (`taskRepository.create`, `chatRepository.getTasksSummary`,
  `chatRepository.getUserStats`) are behaviours passed in an `Env` record as
  `Except String _` values: `.error e` models the promise rejecting with an
  error whose `message` is `e`, `.ok v` models it resolving with `v`.
  The `try`/`catch` blocks of the handlers become `match` on that `Except`.
* `Math.random()`-driven choice is modelled by a natural `rand` in the
  environment, reduced modulo the number of alternatives.
* `Date.prototype.toLocaleDateString` is locale dependent at runtime; it is
  modelled by an abstract formatter `fmtDate : Nat → String` in the
  environment, applied to the numeric `createdAt` instant.
* The `timestamp` field of the response DTO (a wall-clock instant stamped on
  every reply) is omitted from the model: no claim concerns it.
* JavaScript `String.prototype.toLowerCase` and `trim` are modelled by
  `toLowerStr` and `trimStr` below (ASCII case folding and whitespace
  trimming, the same mappings as `String.toLower` / `String.trim`); all
  keywords of the classifier are already lowercase.
* Regular-expression matching is embedded by direct recursive functions that
  reproduce the leftmost-match + backtracking semantics of the six patterns
  used in `handleTaskCreation`; see the doc comments on each function.
-/

namespace DoBot

/-- AssignedUser mirrors the `user` object included with each task assignment
(Prisma `include: \x7b user: true \x7d`). -/
structure AssignedUser where
  id : Nat
  name : String
  email : String
deriving Repr, DecidableEq

/-- TaskAssignment mirrors one element of `task.assignments` as mapped by
`ChatRepository.mapToResponseDTO`. -/
structure TaskAssignment where
  id : Nat
  userId : Nat
  assignedAt : Nat
  user : AssignedUser
deriving Repr, DecidableEq

/-- Task mirrors the task entity handled by the chat use case: id, title,
nullable description, status string, creation instant (epoch number) and the
list of assignments. -/
structure Task where
  id : Nat
  title : String
  description : Option String
  status : String
  createdAt : Nat
  assignments : List TaskAssignment
deriving Repr, DecidableEq

/-- TasksSummary mirrors the object returned by
`ChatRepository.getTasksSummary`.  `byStatus` is a JavaScript object built by
insertion order, modelled as an association list in insertion order. -/
structure TasksSummary where
  total : Nat
  byStatus : List (String × Nat)
  blocked : List Task
  recentlyCompleted : List Task
deriving Repr, DecidableEq

/-- UserStats mirrors the object returned by `ChatRepository.getUserStats`.
`mostBusyUser : string | null` becomes `Option String`. -/
structure UserStats where
  totalUsers : Nat
  tasksPerUser : List (String × Nat)
  mostBusyUser : Option String
deriving Repr, DecidableEq

/-- UserTaskRef mirrors the `task` object included with a user assignment in
`getUserStats` (only its `status` is consulted). -/
structure UserTaskRef where
  id : Nat
  status : String
deriving Repr, DecidableEq

/-- UserAssignment mirrors one element of `user.assignments` in
`getUserStats` (Prisma `include: \x7b task: true \x7d`). -/
structure UserAssignment where
  id : Nat
  task : UserTaskRef
deriving Repr, DecidableEq

/-- UserRec mirrors a row of `prisma.user.findMany` with its assignments. -/
structure UserRec where
  id : Nat
  name : String
  assignments : List UserAssignment
deriving Repr, DecidableEq

/-- ChatMessageDTO mirrors the input DTO: required `message`, optional
`userId` and `context`. -/
structure ChatMessageDTO where
  message : String
  userId : Option Nat := none
  context : Option String := none
deriving Repr, DecidableEq

/-- ActionData is the payload carried in `actionTaken.data` by the various
handlers. -/
inductive ActionData where
  | task : Task → ActionData
  | summary : TasksSummary → ActionData
  | blockedTasks : List Task → ActionData
  | stats : UserStats → ActionData
deriving Repr, DecidableEq

/-- ActionTaken mirrors the optional `actionTaken` envelope of the response
DTO. -/
structure ActionTaken where
  type : String
  data : ActionData
deriving Repr, DecidableEq

/-- ChatResponseDTO mirrors the response DTO (`response`, optional
`actionTaken`, optional `suggestions`; the `timestamp` instant is omitted from
the model). -/
structure ChatResponseDTO where
  response : String
  actionTaken : Option ActionTaken := none
  suggestions : Option (List String) := none
deriving Repr, DecidableEq

/-- Env bundles the behaviours of the two collaborators together with the
randomness source and the locale date formatter for one invocation of
`processMessage`.  `create` receives the title, description and status passed
to `taskRepository.create`. -/
structure Env where
  create : String → String → String → Except String Task
  tasksSummary : Except String TasksSummary
  userStats : Except String UserStats
  fmtDate : Nat → String
  rand : Nat

/-- toLowerStr models JavaScript `String.prototype.toLowerCase` as the
character-wise case folding of the string (the same mapping as
`String.toLower`, written on the character list so that it evaluates by
kernel reduction). -/
def toLowerStr (s : String) : String := ⟨s.data.map Char.toLower⟩

/-- trimStr models JavaScript `String.prototype.trim`: strip whitespace from
both ends (the same trimming as `String.trim`, written on the character
list). -/
def trimStr (s : String) : String :=
  ⟨((((s.data.dropWhile Char.isWhitespace).reverse).dropWhile Char.isWhitespace).reverse)⟩

/-- containsSub hay needle decides whether `needle` occurs as a contiguous
substring of `hay`; it models JavaScript `String.prototype.includes`. -/
def containsSub : List Char → List Char → Bool
  | hay, needle =>
    needle.isPrefixOf hay ||
      match hay with
      | [] => false
      | _ :: t => containsSub t needle

/-- jsIncludes models `s.includes(kw)` on strings. -/
def jsIncludes (s kw : String) : Bool := containsSub s.data kw.data

/-- Keyword table of `isTaskCreationRequest`. -/
def createKeywords : List String :=
  ["crear", "create", "nueva tarea", "new task", "agregar", "add"]

/-- Keyword table of `isStatusQuery`. -/
def statusKeywords : List String :=
  ["estado", "status", "progreso", "progress", "cuántas", "how many", "resumen"]

/-- Keyword table of `isBlockedTasksQuery`. -/
def blockedKeywords : List String :=
  ["bloqueadas", "blocked", "bloqueada", "impedidas"]

/-- Keyword table of `isBusyUserQuery`. -/
def busyKeywords : List String :=
  ["más tareas", "most tasks", "ocupado", "busy", "carga", "usuario"]

/-- isTaskCreationRequest mirrors the keyword test of the source: some
keyword of the table is a substring of the (already lowercased) message. -/
def isTaskCreationRequest (message : String) : Bool :=
  createKeywords.any (fun kw => jsIncludes message kw)

/-- isStatusQuery mirrors the source keyword test. -/
def isStatusQuery (message : String) : Bool :=
  statusKeywords.any (fun kw => jsIncludes message kw)

/-- isBlockedTasksQuery mirrors the source keyword test. -/
def isBlockedTasksQuery (message : String) : Bool :=
  blockedKeywords.any (fun kw => jsIncludes message kw)

/-- isBusyUserQuery mirrors the source keyword test. -/
def isBusyUserQuery (message : String) : Bool :=
  busyKeywords.any (fun kw => jsIncludes message kw)

/-- isQuoteChar recognises the character class `["']` of the title-extraction
patterns. -/
def isQuoteChar (c : Char) : Bool := c = '"' || c = '\x27'

/-- tryCapture models the tail `([^"']+)["']` of the quoted-title patterns at
the position just after an opening quote: the greedy capture takes the maximal
run of non-quote characters, which must be non-empty and be followed by a
closing quote. -/
def tryCapture (l : List Char) : Option (List Char) :=
  let run := l.takeWhile (fun c => !(isQuoteChar c))
  if run.isEmpty then none
  else
    match l.drop run.length with
    | c :: _ => if isQuoteChar c then some run else none
    | [] => none

/-- scanQuoted models the lazy gap `(?:.*?)["']([^"']+)["']` after the
keyword: scan left to right over non-newline characters; at each quote
character attempt the capture, and on failure keep scanning (the gap may run
through quote characters); a newline aborts this starting position because
`.` does not match newlines. -/
def scanQuoted : List Char → Option (List Char)
  | [] => none
  | c :: rest =>
    if c = '\n' then none
    else if isQuoteChar c then
      match tryCapture rest with
      | some cap => some cap
      | none => scanQuoted rest
    else scanQuoted rest

/-- matchQuotedAfter kw models `message.match(/kw(?:.*?)["']([^"']+)["']/)`:
try every occurrence of `kw` left to right (leftmost overall match), and for
each occurrence run the quoted scan on the remainder. -/
def matchQuotedAfter (kw : List Char) : List Char → Option (List Char)
  | [] => none
  | c :: rest =>
    if kw.isPrefixOf (c :: rest) then
      match scanQuoted ((c :: rest).drop kw.length) with
      | some cap => some cap
      | none => matchQuotedAfter kw rest
    else matchQuotedAfter kw rest

/-- matchToEnd models `\s*(.+)$` applied to a remainder: the greedy
whitespace run is consumed first and given back on failure; the capture is a
non-empty newline-free suffix reaching the end of the string (no `m` flag, so
`$` is end of input and `.` excludes newlines). -/
def matchToEnd : List Char → Option (List Char)
  | [] => none
  | c :: rest =>
    if c.isWhitespace then
      match matchToEnd rest with
      | some cap => some cap
      | none => if (c :: rest).all (fun x => x ≠ '\n') then some (c :: rest) else none
    else if (c :: rest).all (fun x => x ≠ '\n') then some (c :: rest) else none

/-- matchColonToEnd models `:?\s*(.+)$` applied to the remainder after the
keyword: the optional colon is consumed greedily first, and on failure the
alternative without consuming it is tried. -/
def matchColonToEnd (r : List Char) : Option (List Char) :=
  match (match r with | ':' :: r1 => matchToEnd r1 | _ => none) with
  | some cap => some cap
  | none => matchToEnd r

/-- matchLineAfter kw models `message.match(/kw:?\s*(.+)$/i)` on the already
lowercased message: try every occurrence of `kw` left to right, and for each
occurrence match the optional colon, whitespace and line capture. -/
def matchLineAfter (kw : List Char) : List Char → Option (List Char)
  | [] => none
  | c :: rest =>
    if kw.isPrefixOf (c :: rest) then
      match matchColonToEnd ((c :: rest).drop kw.length) with
      | some cap => some cap
      | none => matchLineAfter kw rest
    else matchLineAfter kw rest

/-- extractTitle mirrors the six-pattern `||` chain of `handleTaskCreation`
computing `titleMatch[1]` (the raw capture, not yet trimmed). -/
def extractTitle (message : String) : Option String :=
  (matchQuotedAfter "crear".data message.data <|>
   matchQuotedAfter "create".data message.data <|>
   matchLineAfter "nueva tarea".data message.data <|>
   matchLineAfter "new task".data message.data <|>
   matchQuotedAfter "agregar".data message.data <|>
   matchQuotedAfter "add".data message.data).map List.asString

/-- getStatusEmoji mirrors the fixed status → emoji table with its default. -/
def getStatusEmoji (status : String) : String :=
  if status = "Created" then "📝"
  else if status = "InProgress" then "⚡"
  else if status = "Blocked" then "🚫"
  else if status = "Completed" then "✅"
  else if status = "Cancelled" then "❌"
  else "📋"

/-- bumpStatus models one step of the `reduce` building `byStatus`:
`acc[task.status] = (acc[task.status] || 0) + 1` on a JavaScript object,
i.e. increment in place if the key exists, else append it with count 1. -/
def bumpStatus : List (String × Nat) → String → List (String × Nat)
  | [], k => [(k, 1)]
  | (k', v') :: rest, k =>
    if k' = k then (k', v' + 1) :: rest else (k', v') :: bumpStatus rest k

/-- setCount models `acc[user.name] = activeTasks` on a JavaScript object:
overwrite in place if the key exists, else append it. -/
def setCount : List (String × Nat) → String → Nat → List (String × Nat)
  | [], k, v => [(k, v)]
  | (k', v') :: rest, k, v =>
    if k' = k then (k', v) :: rest else (k', v') :: setCount rest k v

/-- mapToResponseDTO mirrors `ChatRepository.mapToResponseDTO`, which rebuilds
the task object field by field (the assignment list defaulting to `[]`); in
this model it reconstructs the same record. -/
def mapToResponseDTO (task : Task) : Task :=
  { id := task.id
    title := task.title
    description := task.description
    status := task.status
    createdAt := task.createdAt
    assignments := task.assignments.map (fun a =>
      { id := a.id
        userId := a.userId
        assignedAt := a.assignedAt
        user := { id := a.user.id, name := a.user.name, email := a.user.email } }) }

/-- getTasksSummary mirrors `ChatRepository.getTasksSummary` as a pure
function of the task table: total count, status histogram in first-seen
order, blocked tasks, and the five most recently created completed tasks. -/
def getTasksSummary (tasks : List Task) : TasksSummary :=
  { total := tasks.length
    byStatus := tasks.foldl (fun acc t => bumpStatus acc t.status) []
    blocked := (tasks.filter (fun t => t.status = "Blocked")).map mapToResponseDTO
    recentlyCompleted :=
      (((tasks.filter (fun t => t.status = "Completed")).mergeSort
          (fun a b => decide (b.createdAt ≤ a.createdAt))).take 5).map mapToResponseDTO }

/-- activeCount is the per-user filter of `getUserStats`: assignments whose
task status is neither Completed nor Cancelled. -/
def activeCount (u : UserRec) : Nat :=
  (u.assignments.filter
    (fun a => !(["Completed", "Cancelled"].contains a.task.status))).length

/-- getUserStats mirrors `ChatRepository.getUserStats` as a pure function of
the user table: per-user active-task counts in insertion order, and
`mostBusyUser` as the first name of the count-descending stable sort, with
the JavaScript `|| null` turning an empty-string name into `null`. -/
def getUserStats (users : List UserRec) : UserStats :=
  let tasksPerUser := users.foldl (fun acc u => setCount acc u.name (activeCount u)) []
  let sorted := tasksPerUser.mergeSort (fun x y => decide (y.2 ≤ x.2))
  { totalUsers := users.length
    tasksPerUser := tasksPerUser
    mostBusyUser :=
      match sorted.head? with
      | none => none
      | some (n, _) => if n = "" then none else some n }

/-- jsRound models JavaScript `Math.round`: the floor of the argument plus
one half. -/
def jsRound (q : ℚ) : ℤ := ⌊q + 1 / 2⌋

/-- completionRate mirrors the computation in `handleStatusQuery`:
`Math.round(((byStatus['Completed'] || 0) / total) * 100)` when `total > 0`,
else `0`. -/
def completionRate (summary : TasksSummary) : ℤ :=
  if summary.total > 0 then
    jsRound ((((summary.byStatus.lookup "Completed").getD 0 : ℚ) / (summary.total : ℚ)) * 100)
  else 0

/-- taskCreatedResponse is the success reply of `handleTaskCreation`. -/
def taskCreatedResponse (title : String) (task : Task) : ChatResponseDTO :=
  { response := "✅ He creado la tarea \"" ++ title ++ "\" exitosamente. La tarea tiene el ID "
      ++ toString task.id ++ " y está en estado \"Created\"."
    actionTaken := some { type := "task_created", data := ActionData.task task }
    suggestions := some
      ["Asignar usuarios a esta tarea",
       "Cambiar el estado a \"In Progress\"",
       "Agregar más detalles a la descripción"] }

/-- noTitleResponse is the clarifying reply of `handleTaskCreation` when no
extraction pattern matches. -/
def noTitleResponse : ChatResponseDTO :=
  { response := "🤔 Entiendo que quieres crear una tarea, pero no pude identificar el título. Puedes decir algo como: \"Crear tarea \x27Revisar código\x27\" o \"Nueva tarea: Actualizar documentación\""
    suggestions := some
      ["Crear tarea \"Ejemplo de tarea\"",
       "Nueva tarea: Revisar documentación",
       "Agregar tarea \"Testing de la aplicación\""] }

/-- handleTaskCreation mirrors the source handler: extract the title, trim
it, and on a match attempt the creation through the Task Directory
collaborator, catching its failure. -/
def handleTaskCreation (create : String → String → String → Except String Task)
    (message : String) : ChatResponseDTO :=
  match extractTitle message with
  | some raw =>
    let title := trimStr raw
    match create title "Tarea creada por el asistente IA" "Created" with
    | Except.ok task => taskCreatedResponse title task
    | Except.error e =>
      { response := "❌ No pude crear la tarea \"" ++ title ++ "\". Error: " ++ e }
  | none => noTitleResponse

/-- statusLines is the `Object.entries(summary.byStatus).forEach` string
accumulation of `handleStatusQuery`. -/
def statusLines (byStatus : List (String × Nat)) (init : String) : String :=
  byStatus.foldl
    (fun acc p => acc ++ "• " ++ getStatusEmoji p.1 ++ " " ++ p.1 ++ ": "
      ++ toString p.2 ++ " tareas\n") init

/-- handleStatusQuery mirrors the source handler: build the summary report
and completion rate on success, or the apologetic reply on collaborator
failure. -/
def handleStatusQuery (tasksSummary : Except String TasksSummary) : ChatResponseDTO :=
  match tasksSummary with
  | Except.ok summary =>
    { response :=
        statusLines summary.byStatus
            ("📊 **Resumen de Tareas:**\n\n" ++ "• Total: " ++ toString summary.total ++ " tareas\n")
          ++ "\n🎯 Tasa de completación: " ++ toString (completionRate summary) ++ "%"
      actionTaken := some { type := "query_executed", data := ActionData.summary summary }
      suggestions := some
        ["¿Qué tareas están bloqueadas?",
         "¿Quién tiene más tareas pendientes?",
         "Crear una nueva tarea"] }
  | Except.error e =>
    { response := "❌ Error al obtener el resumen de tareas: " ++ e }

/-- joinComma models `array.join(', ')`. -/
def joinComma : List String → String
  | [] => ""
  | [s] => s
  | s :: rest => s ++ ", " ++ joinComma rest

/-- blockedEntry is the string appended for the blocked task at 0-based
position `index` by the `forEach` of `handleBlockedTasksQuery`. -/
def blockedEntry (fmtDate : Nat → String) (index : Nat) (task : Task) : String :=
  toString (index + 1) ++ ". **" ++ task.title ++ "**\n"
    ++ (match task.description with
        | some d => if d = "" then "" else "   📝 " ++ d ++ "\n"
        | none => "")
    ++ (if task.assignments.isEmpty then ""
        else "   👥 Asignado a: " ++ joinComma (task.assignments.map (fun a => a.user.name)) ++ "\n")
    ++ "   📅 Creada: " ++ fmtDate task.createdAt ++ "\n\n"

/-- noBlockedResponse is the fixed celebratory reply of
`handleBlockedTasksQuery` for an empty blocked list. -/
def noBlockedResponse : ChatResponseDTO :=
  { response := "🎉 ¡Excelente! No hay tareas bloqueadas en este momento. Todas las tareas están fluyendo correctamente."
    suggestions := some
      ["Ver resumen general de tareas",
       "Crear una nueva tarea",
       "¿Quién tiene más tareas pendientes?"] }

/-- handleBlockedTasksQuery mirrors the source handler: celebratory reply
when nothing is blocked, otherwise the 1-based enumeration of every blocked
task; collaborator failure yields the apologetic reply. -/
def handleBlockedTasksQuery (fmtDate : Nat → String)
    (tasksSummary : Except String TasksSummary) : ChatResponseDTO :=
  match tasksSummary with
  | Except.ok summary =>
    if summary.blocked.isEmpty then noBlockedResponse
    else
      { response :=
          "🚫 **Tareas Bloqueadas (" ++ toString summary.blocked.length ++ "):**\n\n"
            ++ summary.blocked.enum.foldl (fun acc p => acc ++ blockedEntry fmtDate p.1 p.2) ""
        actionTaken := some
          { type := "query_executed", data := ActionData.blockedTasks summary.blocked }
        suggestions := some
          ["Cambiar estado de tarea bloqueada",
           "Ver resumen general",
           "Crear nueva tarea"] }
  | Except.error e =>
    { response := "❌ Error al consultar tareas bloqueadas: " ++ e }

/-- noUsersResponse is the fixed reply of `handleBusyUserQuery` when the
`mostBusyUser` field is falsy. -/
def noUsersResponse : ChatResponseDTO :=
  { response := "📋 No hay usuarios con tareas asignadas en este momento."
    suggestions := some
      ["Ver resumen de tareas",
       "Crear nueva tarea",
       "Ver tareas bloqueadas"] }

/-- busyEmoji is the per-user tier emoji of the distribution lines. -/
def busyEmoji (count : Nat) : String :=
  if count > 3 then "🔥" else if count > 1 then "📋" else "✅"

/-- busyReport builds the user-statistics report of `handleBusyUserQuery` for
a truthy busiest-user name: header, busiest user with their count (a missing
lookup prints the JavaScript `undefined`), then all users sorted by count
descending. -/
def busyReport (stats : UserStats) (name : String) : String :=
  "👥 **Estadísticas de Usuarios:**\n\n"
    ++ "🏆 Usuario más ocupado: **" ++ name ++ "** ("
    ++ (match stats.tasksPerUser.lookup name with
        | some v => toString v
        | none => "undefined")
    ++ " tareas activas)\n\n"
    ++ "📊 **Distribución de tareas:**\n"
    ++ (stats.tasksPerUser.mergeSort (fun x y => decide (y.2 ≤ x.2))).foldl
        (fun acc p => acc ++ "• " ++ busyEmoji p.2 ++ " " ++ p.1 ++ ": "
          ++ toString p.2 ++ " tareas\n") ""

/-- handleBusyUserQuery mirrors the source handler, including the JavaScript
falsiness test `!userStats.mostBusyUser` (null or empty string). -/
def handleBusyUserQuery (userStats : Except String UserStats) : ChatResponseDTO :=
  match userStats with
  | Except.ok stats =>
    match stats.mostBusyUser with
    | none => noUsersResponse
    | some name =>
      if name = "" then noUsersResponse
      else
        { response := busyReport stats name
          actionTaken := some { type := "query_executed", data := ActionData.stats stats }
          suggestions := some
            ["Ver tareas bloqueadas",
             "Crear nueva tarea",
             "Ver resumen general"] }
  | Except.error e =>
    { response := "❌ Error al consultar estadísticas de usuarios: " ++ e }

/-- generalResponses is the fixed table of introductory strings of
`handleGeneralQuery`. -/
def generalResponses : List String :=
  ["🤖 Soy tu asistente para gestión de tareas. Puedo ayudarte a crear tareas, consultar estados y más.",
   "💡 Pregúntame sobre tareas bloqueadas, usuarios ocupados o crea nuevas tareas.",
   "🎯 Estoy aquí para hacer tu gestión de proyectos más eficiente."]

/-- generalSuggestions is the fixed four-item suggestion list of
`handleGeneralQuery`. -/
def generalSuggestions : List String :=
  ["Crear tarea \"Mi nueva tarea\"",
   "¿Qué tareas están bloqueadas?",
   "¿Quién tiene más tareas pendientes?",
   "Ver resumen de tareas"]

/-- handleGeneralQuery mirrors the fallback handler: a random pick among the
three fixed responses (`Math.floor(Math.random() * length)` modelled by the
randomness source modulo the table length) plus the fixed suggestions. -/
def handleGeneralQuery (rand : Nat) : ChatResponseDTO :=
  { response := generalResponses.getD (rand % generalResponses.length) ""
    suggestions := some generalSuggestions }

/-- processMessage mirrors `ChatUseCase.processMessage`: lowercase the
message, then dispatch through the ordered keyword classifiers to exactly one
handler. -/
def processMessage (env : Env) (messageData : ChatMessageDTO) : ChatResponseDTO :=
  let message := toLowerStr messageData.message
  if isTaskCreationRequest message then handleTaskCreation env.create message
  else if isStatusQuery message then handleStatusQuery env.tasksSummary
  else if isBlockedTasksQuery message then handleBlockedTasksQuery env.fmtDate env.tasksSummary
  else if isBusyUserQuery message then handleBusyUserQuery env.userStats
  else handleGeneralQuery env.rand

/-! Helper definitions and lemmas used by the verification theorems. -/

/-- sumCounts is the sum of the values of an association map, the quantity
the specification calls "the sum of the counts in byStatus". -/
def sumCounts (l : List (String × Nat)) : Nat := (l.map Prod.snd).sum

/-- sampleEnv is a concrete environment whose collaborators all succeed,
used by the concrete witnesses. -/
def sampleEnv : Env :=
  { create := fun t _ _ => Except.ok
      { id := 7, title := t, description := some "Tarea creada por el asistente IA"
        status := "Created", createdAt := 0, assignments := [] }
    tasksSummary := Except.ok { total := 0, byStatus := [], blocked := [], recentlyCompleted := [] }
    userStats := Except.ok { totalUsers := 0, tasksPerUser := [], mostBusyUser := none }
    fmtDate := fun _ => "1/1/2024"
    rand := 0 }

/-- failEnv is a concrete environment whose collaborators all fail, used by
the error-handling witnesses. -/
def failEnv : Env :=
  { create := fun _ _ _ => Except.error "db down"
    tasksSummary := Except.error "agg down"
    userStats := Except.error "stats down"
    fmtDate := fun _ => ""
    rand := 0 }

lemma sumCounts_bumpStatus (acc : List (String × Nat)) (k : String) :
    sumCounts (bumpStatus acc k) = sumCounts acc + 1 := by
  induction acc with
  | nil => simp [bumpStatus, sumCounts]
  | cons p rest ih =>
    obtain ⟨k', v'⟩ := p
    by_cases h : k' = k
    · simp [bumpStatus, h, sumCounts]
      omega
    · simp [bumpStatus, h, sumCounts] at ih ⊢
      omega

lemma sumCounts_foldl_bump (tasks : List Task) (acc : List (String × Nat)) :
    sumCounts (tasks.foldl (fun a t => bumpStatus a t.status) acc)
      = sumCounts acc + tasks.length := by
  induction tasks generalizing acc with
  | nil => simp
  | cons t rest ih =>
    simp only [List.foldl_cons, List.length_cons, ih, sumCounts_bumpStatus]
    omega

lemma str_data_ne_nil_append (a b : String) (h : a.data ≠ []) : (a ++ b).data ≠ [] := by
  rw [String.data_append]
  intro hh
  exact h (List.append_eq_nil.mp hh).1

lemma str_ne_empty_of_data (s : String) (h : s.data ≠ []) : s ≠ "" := by
  intro he
  rw [he] at h
  exact h rfl

lemma isTaskCreationRequest_of_kw (m kw : String) (hkw : kw ∈ createKeywords)
    (h : jsIncludes m kw = true) : isTaskCreationRequest m = true := by
  unfold isTaskCreationRequest
  rw [List.any_eq_true]
  exact ⟨kw, hkw, h⟩

lemma handleGeneralQuery_response_mem (rand : Nat) :
    (handleGeneralQuery rand).response ∈ generalResponses := by
  have hlt : rand % generalResponses.length < generalResponses.length :=
    Nat.mod_lt _ (by decide)
  show generalResponses.getD (rand % generalResponses.length) "" ∈ generalResponses
  rw [List.getD_eq_getElem?_getD, List.getElem?_eq_getElem hlt]
  exact List.getElem_mem hlt

/-! Claim theorems. -/

/-- C5: for every list of tasks, the sum of the counts in the `byStatus`
histogram built by `getTasksSummary` equals `total`, the number of tasks in
the list. -/
theorem byStatus_sums_to_total (tasks : List Task) :
    sumCounts (getTasksSummary tasks).byStatus = (getTasksSummary tasks).total := by
  show sumCounts (tasks.foldl (fun a t => bumpStatus a t.status) []) = tasks.length
  rw [sumCounts_foldl_bump]
  simp [sumCounts]

/-- C2: intent classification is first-match-wins with CreateTask first: any
message whose lowercased form contains a CreateTask keyword as a substring is
dispatched to the task-creation handler, whatever other keywords it also
contains. -/
theorem createTask_priority (env : Env) (input : ChatMessageDTO) (kw : String)
    (hkw : kw ∈ createKeywords)
    (h : jsIncludes (toLowerStr input.message) kw = true) :
    processMessage env input = handleTaskCreation env.create (toLowerStr input.message) := by
  unfold processMessage
  dsimp only
  rw [isTaskCreationRequest_of_kw _ kw hkw h]
  simp

/-- Witness for C2 at a message containing both a CreateTask keyword and a
StatusQuery keyword. -/
theorem createTask_priority_witness :
    ("crear" ∈ createKeywords) ∧
    jsIncludes (toLowerStr "Crear el estado") "crear" = true ∧
    jsIncludes (toLowerStr "Crear el estado") "estado" = true ∧
    processMessage sampleEnv { message := "Crear el estado" }
      = handleTaskCreation sampleEnv.create (toLowerStr "Crear el estado") :=
  ⟨by decide, by decide, by decide,
    createTask_priority sampleEnv { message := "Crear el estado" } "crear" (by decide) (by decide)⟩

/-- C9: a message matched by no keyword table is handled by the fallback
handler: for every value of the randomness source the response is one of the
three fixed introductory strings, the suggestion list has exactly four
elements, no `actionTaken` is set, and the result does not depend on the
collaborators (no collaborator is called). -/
theorem generalQuery_spec (env : Env) (input : ChatMessageDTO)
    (h1 : isTaskCreationRequest (toLowerStr input.message) = false)
    (h2 : isStatusQuery (toLowerStr input.message) = false)
    (h3 : isBlockedTasksQuery (toLowerStr input.message) = false)
    (h4 : isBusyUserQuery (toLowerStr input.message) = false) :
    (processMessage env input).response ∈ generalResponses ∧
    (processMessage env input).suggestions = some generalSuggestions ∧
    generalSuggestions.length = 4 ∧
    (processMessage env input).actionTaken = none ∧
    ∀ env' : Env, env'.rand = env.rand → processMessage env' input = processMessage env input := by
  have hred : ∀ env'' : Env, env''.rand = env.rand →
      processMessage env'' input = handleGeneralQuery env.rand := by
    intro env'' he
    unfold processMessage
    dsimp only
    rw [h1, h2, h3, h4, he]
    simp
  rw [hred env rfl]
  refine ⟨handleGeneralQuery_response_mem env.rand, rfl, by decide, rfl, ?_⟩
  intro env' he
  rw [hred env' he]

/-- Witness for C9 at the message "Hola". -/
theorem generalQuery_spec_witness :
    isTaskCreationRequest (toLowerStr "Hola") = false ∧
    (processMessage sampleEnv { message := "Hola" }).response ∈ generalResponses ∧
    (processMessage sampleEnv { message := "Hola" }).suggestions = some generalSuggestions ∧
    (processMessage sampleEnv { message := "Hola" }).actionTaken = none :=
  ⟨by decide,
    (generalQuery_spec sampleEnv { message := "Hola" } (by decide) (by decide) (by decide) (by decide)).1,
    (generalQuery_spec sampleEnv { message := "Hola" } (by decide) (by decide) (by decide) (by decide)).2.1,
    (generalQuery_spec sampleEnv { message := "Hola" } (by decide) (by decide) (by decide) (by decide)).2.2.2.1⟩

lemma generalResponses_ne_empty : ∀ r ∈ generalResponses, r ≠ "" := by decide

lemma handleGeneralQuery_response_ne (rand : Nat) : (handleGeneralQuery rand).response ≠ "" :=
  generalResponses_ne_empty _ (handleGeneralQuery_response_mem rand)

/-- dispatchCreate states the routing of `processMessage` when the
CreateTask table matches. -/
lemma dispatchCreate (env : Env) (input : ChatMessageDTO)
    (h : isTaskCreationRequest (toLowerStr input.message) = true) :
    processMessage env input = handleTaskCreation env.create (toLowerStr input.message) := by
  unfold processMessage
  dsimp only
  rw [h]
  simp

/-- dispatchStatus states the routing of `processMessage` to the status
handler. -/
lemma dispatchStatus (env : Env) (input : ChatMessageDTO)
    (h1 : isTaskCreationRequest (toLowerStr input.message) = false)
    (h2 : isStatusQuery (toLowerStr input.message) = true) :
    processMessage env input = handleStatusQuery env.tasksSummary := by
  unfold processMessage
  dsimp only
  rw [h1, h2]
  simp

/-- dispatchBlocked states the routing of `processMessage` to the
blocked-tasks handler. -/
lemma dispatchBlocked (env : Env) (input : ChatMessageDTO)
    (h1 : isTaskCreationRequest (toLowerStr input.message) = false)
    (h2 : isStatusQuery (toLowerStr input.message) = false)
    (h3 : isBlockedTasksQuery (toLowerStr input.message) = true) :
    processMessage env input = handleBlockedTasksQuery env.fmtDate env.tasksSummary := by
  unfold processMessage
  dsimp only
  rw [h1, h2, h3]
  simp

/-- dispatchBusy states the routing of `processMessage` to the busy-user
handler. -/
lemma dispatchBusy (env : Env) (input : ChatMessageDTO)
    (h1 : isTaskCreationRequest (toLowerStr input.message) = false)
    (h2 : isStatusQuery (toLowerStr input.message) = false)
    (h3 : isBlockedTasksQuery (toLowerStr input.message) = false)
    (h4 : isBusyUserQuery (toLowerStr input.message) = true) :
    processMessage env input = handleBusyUserQuery env.userStats := by
  unfold processMessage
  dsimp only
  rw [h1, h2, h3, h4]
  simp

/-- dispatchGeneral states the routing of `processMessage` to the fallback
handler. -/
lemma dispatchGeneral (env : Env) (input : ChatMessageDTO)
    (h1 : isTaskCreationRequest (toLowerStr input.message) = false)
    (h2 : isStatusQuery (toLowerStr input.message) = false)
    (h3 : isBlockedTasksQuery (toLowerStr input.message) = false)
    (h4 : isBusyUserQuery (toLowerStr input.message) = false) :
    processMessage env input = handleGeneralQuery env.rand := by
  unfold processMessage
  dsimp only
  rw [h1, h2, h3, h4]
  simp

lemma handleTaskCreation_failure (create : String → String → String → Except String Task)
    (msg : String) (hc : ∀ t d s, ∃ e, create t d s = Except.error e) :
    (handleTaskCreation create msg).actionTaken = none ∧
    (handleTaskCreation create msg).response ≠ "" := by
  unfold handleTaskCreation
  cases hext : extractTitle msg with
  | some raw =>
    obtain ⟨e1, hce⟩ := hc (trimStr raw) "Tarea creada por el asistente IA" "Created"
    dsimp only
    rw [hce]
    exact ⟨rfl, str_ne_empty_of_data _
      (str_data_ne_nil_append _ _ (str_data_ne_nil_append _ _
        (str_data_ne_nil_append _ _ (by decide))))⟩
  | none =>
    dsimp only
    exact ⟨rfl, by decide⟩

/-- C1: `processMessage` is total by construction in this embedding (it is a
Lean function into `ChatResponseDTO`, mirroring that every collaborator
rejection is caught inside the handlers); this theorem proves the
failure-conversion half of the claim: for every non-empty message and every
behaviour in which each collaborator call fails, the result carries no
`actionTaken` and a non-empty user-facing response text. -/
theorem processMessage_total_on_failure (env : Env) (input : ChatMessageDTO)
    (_hmsg : input.message ≠ "")
    (hc : ∀ t d s, ∃ e, env.create t d s = Except.error e)
    (hs : ∃ e, env.tasksSummary = Except.error e)
    (hu : ∃ e, env.userStats = Except.error e) :
    (processMessage env input).actionTaken = none ∧
    (processMessage env input).response ≠ "" := by
  obtain ⟨e2, hs⟩ := hs
  obtain ⟨e3, hu⟩ := hu
  rcases Bool.eq_false_or_eq_true (isTaskCreationRequest (toLowerStr input.message)) with h1 | h1
  · rw [dispatchCreate env input h1]
    exact handleTaskCreation_failure env.create (toLowerStr input.message) hc
  · rcases Bool.eq_false_or_eq_true (isStatusQuery (toLowerStr input.message)) with h2 | h2
    · rw [dispatchStatus env input h1 h2]
      unfold handleStatusQuery
      rw [hs]
      exact ⟨rfl, str_ne_empty_of_data _ (str_data_ne_nil_append _ _ (by decide))⟩
    · rcases Bool.eq_false_or_eq_true (isBlockedTasksQuery (toLowerStr input.message)) with h3 | h3
      · rw [dispatchBlocked env input h1 h2 h3]
        unfold handleBlockedTasksQuery
        rw [hs]
        exact ⟨rfl, str_ne_empty_of_data _ (str_data_ne_nil_append _ _ (by decide))⟩
      · rcases Bool.eq_false_or_eq_true (isBusyUserQuery (toLowerStr input.message)) with h4 | h4
        · rw [dispatchBusy env input h1 h2 h3 h4]
          unfold handleBusyUserQuery
          rw [hu]
          exact ⟨rfl, str_ne_empty_of_data _ (str_data_ne_nil_append _ _ (by decide))⟩
        · rw [dispatchGeneral env input h1 h2 h3 h4]
          exact ⟨rfl, handleGeneralQuery_response_ne env.rand⟩

/-- Witness for C1 at a creation message against all-failing collaborators. -/
theorem processMessage_total_on_failure_witness :
    ("Crear tarea \"X\"" : String) ≠ "" ∧
    (processMessage failEnv { message := "Crear tarea \"X\"" }).actionTaken = none ∧
    (processMessage failEnv { message := "Crear tarea \"X\"" }).response ≠ "" :=
  ⟨by decide,
    (processMessage_total_on_failure failEnv { message := "Crear tarea \"X\"" }
      (by decide) (fun t d s => ⟨"db down", rfl⟩) ⟨"agg down", rfl⟩ ⟨"stats down", rfl⟩).1,
    (processMessage_total_on_failure failEnv { message := "Crear tarea \"X\"" }
      (by decide) (fun t d s => ⟨"db down", rfl⟩) ⟨"agg down", rfl⟩ ⟨"stats down", rfl⟩).2⟩

lemma containsSub_eq_true_iff (hay needle : List Char) :
    containsSub hay needle = true ↔ needle <:+: hay := by
  induction hay with
  | nil =>
    unfold containsSub
    simp [List.isPrefixOf_iff_prefix]
  | cons c t ih =>
    unfold containsSub
    simp [List.isPrefixOf_iff_prefix, ih, List.infix_cons_iff]

lemma jsIncludes_of_infix (s kw : String) (h : kw.data <:+: s.data) : jsIncludes s kw = true :=
  (containsSub_eq_true_iff _ _).mpr h

lemma infix_str_append_left (x : List Char) (u v : String) (h : x <:+: u.data) :
    x <:+: (u ++ v).data := by
  rw [String.data_append]
  exact h.trans (List.prefix_append u.data v.data).isInfix

lemma title_infix_created_response (title : String) (task : Task) :
    jsIncludes (taskCreatedResponse title task).response title = true := by
  apply jsIncludes_of_infix
  unfold taskCreatedResponse
  dsimp only
  apply infix_str_append_left
  apply infix_str_append_left
  apply infix_str_append_left
  rw [String.data_append]
  exact List.IsSuffix.isInfix ⟨_, rfl⟩

/-- C3 counterexample: on the CreateTask message `crear " "` the quoted span
is whitespace-only, so the extracted title trims to the empty string, yet
the handler still calls the create collaborator and reports a created task
with `actionTaken` set — a whitespace-only span does not count as NoMatch
and the clarifying response is not returned. -/
theorem whitespace_title_not_nomatch :
    (extractTitle (toLowerStr "crear \" \"")).map trimStr = some "" ∧
    (processMessage sampleEnv { message := "crear \" \"" }).actionTaken =
      some { type := "task_created", data := (ActionData.task
        { id := 7, title := "", description := some "Tarea creada por el asistente IA"
          status := "Created", createdAt := 0, assignments := [] }) } ∧
    (processMessage sampleEnv { message := "crear \" \"" }).response
      ≠ noTitleResponse.response := by decide

/-- C3 amended: only when no extraction pattern matches at all does the
handler skip the create collaborator and return the fixed clarifying
response with its three example-command suggestions and no `actionTaken`
(a matched span that trims to the empty string instead proceeds to
creation with the empty title). -/
theorem no_match_clarifies (env : Env) (input : ChatMessageDTO)
    (hintent : isTaskCreationRequest (toLowerStr input.message) = true)
    (hext : extractTitle (toLowerStr input.message) = none) :
    processMessage env input = noTitleResponse ∧
    noTitleResponse.actionTaken = none ∧
    noTitleResponse.suggestions.map List.length = some 3 := by
  refine ⟨?_, rfl, by decide⟩
  rw [dispatchCreate env input hintent]
  unfold handleTaskCreation
  rw [hext]

/-- Witness for the amended C3 at the message "crear tarea" (creation intent
but no pattern match). -/
theorem no_match_clarifies_witness :
    isTaskCreationRequest (toLowerStr "crear tarea") = true ∧
    extractTitle (toLowerStr "crear tarea") = none ∧
    processMessage sampleEnv { message := "crear tarea" } = noTitleResponse :=
  ⟨by decide, by decide,
    (no_match_clarifies sampleEnv { message := "crear tarea" } (by decide) (by decide)).1⟩

/-- taskRevisar is the task returned by `sampleEnv.create` for the lowercased
title "revisar código". -/
def taskRevisar : Task :=
  { id := 7, title := "revisar código", description := some "Tarea creada por el asistente IA"
    status := "Created", createdAt := 0, assignments := [] }

/-- C4 counterexample: processing `Crear tarea "Revisar código"` with a
succeeding create collaborator does set `actionTaken.type = "task_created"`,
but the response does not contain "Revisar código" with its original casing:
the whole message is lowercased before extraction, so the response embeds
the lowercased title. -/
theorem created_title_lowercased :
    (processMessage sampleEnv { message := "Crear tarea \"Revisar código\"" }).actionTaken =
      some { type := "task_created", data := ActionData.task taskRevisar } ∧
    jsIncludes (processMessage sampleEnv { message := "Crear tarea \"Revisar código\"" }).response
      "Revisar código" = false := by decide

/-- C4 amended: processing `Crear tarea "Revisar código"` with a create
collaborator that succeeds on the lowercased title yields
`actionTaken.type = "task_created"` with the created task, and a response
containing the lowercased title "revisar código" (the original casing is
lost to normalization). -/
theorem created_title_lowercased_amended (env : Env) (task : Task)
    (hok : env.create "revisar código" "Tarea creada por el asistente IA" "Created"
      = Except.ok task) :
    (processMessage env { message := "Crear tarea \"Revisar código\"" }).actionTaken =
      some { type := "task_created", data := ActionData.task task } ∧
    jsIncludes (processMessage env { message := "Crear tarea \"Revisar código\"" }).response
      "revisar código" = true := by
  rw [dispatchCreate env { message := "Crear tarea \"Revisar código\"" } (by decide)]
  have hlow : toLowerStr "Crear tarea \"Revisar código\"" = "crear tarea \"revisar código\"" := by
    decide
  rw [hlow]
  unfold handleTaskCreation
  have hex : extractTitle "crear tarea \"revisar código\"" = some "revisar código" := by decide
  rw [hex]
  dsimp only
  have htrim : trimStr "revisar código" = "revisar código" := by decide
  rw [htrim, hok]
  exact ⟨rfl, title_infix_created_response "revisar código" task⟩

/-- Witness for the amended C4 with the concrete succeeding collaborator. -/
theorem created_title_lowercased_amended_witness :
    sampleEnv.create "revisar código" "Tarea creada por el asistente IA" "Created"
      = Except.ok taskRevisar ∧
    jsIncludes (processMessage sampleEnv { message := "Crear tarea \"Revisar código\"" }).response
      "revisar código" = true :=
  ⟨rfl, (created_title_lowercased_amended sampleEnv taskRevisar rfl).2⟩

lemma lookup_le_sumCounts (l : List (String × Nat)) (k : String) (v : Nat)
    (h : l.lookup k = some v) : v ≤ sumCounts l := by
  induction l with
  | nil => simp [List.lookup] at h
  | cons p rest ih =>
    obtain ⟨k', v'⟩ := p
    by_cases hk : k = k'
    · have hb : (k == k') = true := beq_iff_eq.mpr hk
      simp only [List.lookup, hb] at h
      cases h
      simp [sumCounts]
    · have hb : (k == k') = false := beq_eq_false_iff_ne.mpr hk
      simp only [List.lookup, hb] at h
      have := ih h
      simp only [sumCounts, List.map_cons, List.sum_cons] at this ⊢
      omega

/-- sampleSummary is a concrete summary used by the completion-rate
witness. -/
def sampleSummary : TasksSummary :=
  { total := 2, byStatus := [("Completed", 1), ("Created", 1)]
    blocked := [], recentlyCompleted := [] }

/-- C6: for every summary whose `byStatus` counts sum to `total`, the
completion rate of the status handler equals
`round (100 × completedCount / total)`, is `0` when `total = 0`, and lies in
`[0, 100]`. -/
theorem completionRate_spec (s : TasksSummary) (h : sumCounts s.byStatus = s.total) :
    completionRate s
      = round ((100 * (((s.byStatus.lookup "Completed").getD 0 : ℚ))) / (s.total : ℚ)) ∧
    (s.total = 0 → completionRate s = 0) ∧
    0 ≤ completionRate s ∧ completionRate s ≤ 100 := by
  have hc_le : ((s.byStatus.lookup "Completed").getD 0) ≤ s.total := by
    cases hl : s.byStatus.lookup "Completed" with
    | none => simp
    | some v =>
      rw [← h]
      simpa using lookup_le_sumCounts s.byStatus "Completed" v hl
  by_cases ht : s.total = 0
  · have h0 : completionRate s = 0 := by
      unfold completionRate
      rw [if_neg (by omega)]
    refine ⟨?_, fun _ => h0, by rw [h0], by rw [h0]; norm_num⟩
    rw [h0, ht]
    norm_num
  · have htpos : 0 < s.total := Nat.pos_of_ne_zero ht
    have htq : (0 : ℚ) < (s.total : ℚ) := by exact_mod_cast htpos
    set c : Nat := (s.byStatus.lookup "Completed").getD 0 with hcdef
    have hrate : completionRate s = jsRound (((c : ℚ) / (s.total : ℚ)) * 100) := by
      unfold completionRate
      rw [if_pos htpos]
    have hq_eq : ((c : ℚ) / (s.total : ℚ)) * 100 = (100 * (c : ℚ)) / (s.total : ℚ) := by
      ring
    have hq0 : (0 : ℚ) ≤ ((c : ℚ) / (s.total : ℚ)) * 100 := by
      apply mul_nonneg
      · exact div_nonneg (by positivity) (le_of_lt htq)
      · norm_num
    have hq100 : ((c : ℚ) / (s.total : ℚ)) * 100 ≤ 100 := by
      have hcq : (c : ℚ) ≤ (s.total : ℚ) := by exact_mod_cast hc_le
      have : (c : ℚ) / (s.total : ℚ) ≤ 1 := (div_le_one htq).mpr hcq
      nlinarith
    refine ⟨?_, fun h0 => absurd h0 ht, ?_, ?_⟩
    · rw [hrate, hq_eq]
      unfold jsRound
      rw [round_eq]
    · rw [hrate]
      unfold jsRound
      rw [Int.le_floor]
      push_cast
      linarith
    · rw [hrate]
      unfold jsRound
      rw [← Int.lt_add_one_iff, Int.floor_lt]
      push_cast
      linarith

/-- Witness for C6 at a concrete summary with two tasks, one completed. -/
theorem completionRate_spec_witness :
    sumCounts sampleSummary.byStatus = sampleSummary.total ∧
    (0 ≤ completionRate sampleSummary ∧ completionRate sampleSummary ≤ 100) :=
  ⟨by decide,
    ⟨(completionRate_spec sampleSummary (by decide)).2.2.1,
     (completionRate_spec sampleSummary (by decide)).2.2.2⟩⟩

/-! Lemmas about the user-statistics aggregation. -/

lemma mergeSort_single {α : Type} (le : α → α → Bool) (x : α) :
    List.mergeSort [x] le = [x] :=
  List.perm_singleton.mp (List.mergeSort_perm [x] le)

lemma setCount_ne_nil (acc : List (String × Nat)) (k : String) (v : Nat) :
    setCount acc k v ≠ [] := by
  cases acc with
  | nil => simp [setCount]
  | cons p rest =>
    obtain ⟨k', v'⟩ := p
    by_cases h : k' = k <;> simp [setCount, h]

lemma keys_setCount (acc : List (String × Nat)) (k : String) (v : Nat) (m : String) :
    m ∈ (setCount acc k v).map Prod.fst ↔ m = k ∨ m ∈ acc.map Prod.fst := by
  induction acc with
  | nil => simp [setCount, eq_comm]
  | cons p rest ih =>
    obtain ⟨k', v'⟩ := p
    by_cases h : k' = k
    · subst h
      simp [setCount]
    · simp [setCount, h, ih]
      tauto

lemma nodup_keys_setCount (acc : List (String × Nat)) (k : String) (v : Nat)
    (h : (acc.map Prod.fst).Nodup) : ((setCount acc k v).map Prod.fst).Nodup := by
  induction acc with
  | nil => simp [setCount]
  | cons p rest ih =>
    obtain ⟨k', v'⟩ := p
    simp only [List.map_cons, List.nodup_cons] at h
    by_cases hk : k' = k
    · simp only [setCount, if_pos hk, List.map_cons, List.nodup_cons]
      exact h
    · simp only [setCount, if_neg hk, List.map_cons, List.nodup_cons]
      refine ⟨?_, ih h.2⟩
      rw [keys_setCount]
      push_neg
      exact ⟨hk, h.1⟩

lemma foldl_setCount_keys (users : List UserRec) (acc : List (String × Nat)) (m : String) :
    m ∈ ((users.foldl (fun a u => setCount a u.name (activeCount u)) acc).map Prod.fst) ↔
      m ∈ acc.map Prod.fst ∨ m ∈ users.map UserRec.name := by
  induction users generalizing acc with
  | nil => simp
  | cons u rest ih =>
    simp only [List.foldl_cons, ih, keys_setCount, List.map_cons, List.mem_cons]
    tauto

lemma foldl_setCount_nodup (users : List UserRec) (acc : List (String × Nat))
    (h : (acc.map Prod.fst).Nodup) :
    (((users.foldl (fun a u => setCount a u.name (activeCount u)) acc)).map Prod.fst).Nodup := by
  induction users generalizing acc with
  | nil => exact h
  | cons u rest ih =>
    exact ih _ (nodup_keys_setCount acc u.name (activeCount u) h)

lemma foldl_setCount_ne_nil (users : List UserRec) (acc : List (String × Nat))
    (h : acc ≠ []) :
    users.foldl (fun a u => setCount a u.name (activeCount u)) acc ≠ [] := by
  induction users generalizing acc with
  | nil => exact h
  | cons u rest ih =>
    exact ih _ (setCount_ne_nil acc u.name (activeCount u))

lemma lookup_isSome_of_mem_keys (l : List (String × Nat)) (k : String)
    (h : k ∈ l.map Prod.fst) : ∃ v, l.lookup k = some v := by
  induction l with
  | nil => simp at h
  | cons p rest ih =>
    obtain ⟨k', v'⟩ := p
    by_cases hk : k = k'
    · exact ⟨v', by simp [List.lookup, beq_iff_eq.mpr hk]⟩
    · have hb : (k == k') = false := beq_eq_false_iff_ne.mpr hk
      simp only [List.map_cons, List.mem_cons] at h
      rcases h with h | h
      · exact absurd h hk
      · obtain ⟨v, hv⟩ := ih h
        exact ⟨v, by simp [List.lookup, hb, hv]⟩

lemma lookup_eq_of_mem_nodup (l : List (String × Nat)) (k : String) (v : Nat)
    (hmem : (k, v) ∈ l) (hnd : (l.map Prod.fst).Nodup) : l.lookup k = some v := by
  induction l with
  | nil => simp at hmem
  | cons p rest ih =>
    obtain ⟨k', v'⟩ := p
    simp only [List.map_cons, List.nodup_cons] at hnd
    rcases List.mem_cons.mp hmem with h | h
    · injection h with hk hv
      subst hk
      subst hv
      simp [List.lookup]
    · have hk : k ≠ k' := by
        intro he
        apply hnd.1
        subst he
        exact List.mem_map_of_mem Prod.fst h
      have hb : (k == k') = false := beq_eq_false_iff_ne.mpr hk
      simp only [List.lookup, hb]
      exact ih h hnd.2

lemma cntLe_trans : ∀ a b c : String × Nat,
    (fun x y : String × Nat => decide (y.2 ≤ x.2)) a b = true →
    (fun x y : String × Nat => decide (y.2 ≤ x.2)) b c = true →
    (fun x y : String × Nat => decide (y.2 ≤ x.2)) a c = true := by
  intro a b c hab hbc
  simp only [decide_eq_true_eq] at hab hbc ⊢
  omega

lemma cntLe_total : ∀ a b : String × Nat,
    ((fun x y : String × Nat => decide (y.2 ≤ x.2)) a b ||
     (fun x y : String × Nat => decide (y.2 ≤ x.2)) b a) = true := by
  intro a b
  simp only [Bool.or_eq_true, decide_eq_true_eq]
  omega

lemma getUserStats_tasksPerUser (users : List UserRec) :
    (getUserStats users).tasksPerUser
      = users.foldl (fun a u => setCount a u.name (activeCount u)) [] := rfl

lemma getUserStats_mostBusyUser (users : List UserRec) :
    (getUserStats users).mostBusyUser
      = match ((users.foldl (fun a u => setCount a u.name (activeCount u)) []).mergeSort
          (fun x y => decide (y.2 ≤ x.2))).head? with
        | none => none
        | some (n, _) => if n = "" then none else some n := rfl

/-- sampleUsers is a concrete user table for the user-statistics
witnesses. -/
def sampleUsers : List UserRec :=
  [{ id := 1, name := "ana", assignments := [{ id := 1, task := { id := 1, status := "Created" } }] },
   { id := 2, name := "bo", assignments := [] }]

/-- C7 counterexample: for the single user whose display name is the empty
string, `tasksPerUser` is the non-empty map `[("", 0)]`, yet `mostBusyUser`
is `null`: the JavaScript `|| null` treats the empty-string name as falsy,
breaking the claimed equivalence. -/
theorem empty_name_breaks_mostBusyUser :
    (getUserStats [{ id := 1, name := "", assignments := [] }]).tasksPerUser = [("", 0)] ∧
    (getUserStats [{ id := 1, name := "", assignments := [] }]).mostBusyUser = none := by
  constructor
  · rfl
  · rw [getUserStats_mostBusyUser]
    have : (List.foldl (fun a u => setCount a u.name (activeCount u)) []
        [{ id := 1, name := "", assignments := [] }]) = [("", 0)] := rfl
    rw [this, mergeSort_single]
    rfl

/-- C7 amended: for every list of users in which every display name is
non-empty, `mostBusyUser` is absent if and only if `tasksPerUser` is empty,
and when present it names an entry of `tasksPerUser` whose active count is
the maximum over all entries (for an empty-string name the `|| null` makes
`mostBusyUser` null even though `tasksPerUser` is non-empty). -/
theorem mostBusyUser_spec (users : List UserRec)
    (hn : ∀ u ∈ users, u.name ≠ "") :
    ((getUserStats users).mostBusyUser = none ↔ (getUserStats users).tasksPerUser = []) ∧
    (∀ n, (getUserStats users).mostBusyUser = some n →
      ∃ v, ((getUserStats users).tasksPerUser).lookup n = some v ∧
        ∀ p ∈ (getUserStats users).tasksPerUser, p.2 ≤ v) := by
  have hperm := List.mergeSort_perm
    (users.foldl (fun a u => setCount a u.name (activeCount u)) [])
    (fun x y => decide (y.2 ≤ x.2))
  have hname : ∀ m ∈ ((users.foldl (fun a u => setCount a u.name (activeCount u)) []).map
      Prod.fst), m ≠ "" := by
    intro m hm
    rcases (foldl_setCount_keys users [] m).mp hm with h | h
    · simp at h
    · obtain ⟨u, hu, he⟩ := List.mem_map.mp h
      exact he ▸ hn u hu
  constructor
  · constructor
    · intro hnone
      by_contra hne
      cases hsor : (users.foldl (fun a u => setCount a u.name (activeCount u)) []).mergeSort
          (fun x y => decide (y.2 ≤ x.2)) with
      | nil =>
        rw [hsor] at hperm
        have htp := hperm.symm.eq_nil
        exact hne ((getUserStats_tasksPerUser users).trans htp)
      | cons p tail =>
        obtain ⟨n, v⟩ := p
        have hmem : (n, v) ∈ users.foldl (fun a u => setCount a u.name (activeCount u)) [] :=
          (hperm.mem_iff).mp (hsor ▸ List.mem_cons_self _ _)
        have hne' : n ≠ "" := hname n (List.mem_map_of_mem Prod.fst hmem)
        rw [getUserStats_mostBusyUser, hsor] at hnone
        simp only [List.head?_cons] at hnone
        rw [if_neg hne'] at hnone
        exact Option.some_ne_none n hnone
    · intro hnil
      rw [getUserStats_mostBusyUser]
      rw [getUserStats_tasksPerUser] at hnil
      rw [hnil, List.mergeSort_nil]
      rfl
  · intro n hsome
    rw [getUserStats_mostBusyUser] at hsome
    cases hsor : (users.foldl (fun a u => setCount a u.name (activeCount u)) []).mergeSort
        (fun x y => decide (y.2 ≤ x.2)) with
    | nil =>
      rw [hsor] at hsome
      simp at hsome
    | cons p tail =>
      obtain ⟨m, v⟩ := p
      rw [hsor] at hsome
      simp only [List.head?_cons] at hsome
      by_cases hm : m = ""
      · rw [if_pos hm] at hsome
        exact absurd hsome (Option.noConfusion)
      · rw [if_neg hm] at hsome
        have hmn : m = n := Option.some.inj hsome
        subst hmn
        have hmem : (m, v) ∈ users.foldl (fun a u => setCount a u.name (activeCount u)) [] := by
          apply (hperm.mem_iff).mp
          rw [hsor]
          exact List.mem_cons_self _ _
        have hnd := foldl_setCount_nodup users [] (by simp)
        refine ⟨v, lookup_eq_of_mem_nodup _ m v hmem hnd, ?_⟩
        intro p hp
        have hsorted := List.sorted_mergeSort cntLe_trans cntLe_total
          (users.foldl (fun a u => setCount a u.name (activeCount u)) [])
        rw [hsor] at hsorted
        have hp' : p ∈ ((m, v) :: tail : List (String × Nat)) := by
          rw [← hsor]
          exact (hperm.mem_iff).mpr hp
        rcases List.mem_cons.mp hp' with h | h
        · rw [h]
        · have := (List.pairwise_cons.mp hsorted).1 p h
          simpa using this

/-- Witness for the amended C7 at a two-user table. -/
theorem mostBusyUser_spec_witness :
    (∀ u ∈ sampleUsers, u.name ≠ "") ∧
    ¬ ((getUserStats sampleUsers).mostBusyUser = none ∧
       (getUserStats sampleUsers).tasksPerUser ≠ []) :=
  ⟨by decide, fun ⟨h1, h2⟩ => h2 (((mostBusyUser_spec sampleUsers (by decide)).1).mp h1)⟩

lemma head?_str_append_left (u v : String) (c : Char) (h : u.data.head? = some c) :
    (u ++ v).data.head? = some c := by
  rw [String.data_append]
  cases hu : u.data with
  | nil => rw [hu] at h; simp at h
  | cons a t =>
    rw [hu] at h
    simp only [List.head?_cons] at h ⊢
    simpa using h

lemma busyReport_head (stats : UserStats) (name : String) :
    (busyReport stats name).data.head? = some '👥' := by
  unfold busyReport
  apply head?_str_append_left
  apply head?_str_append_left
  apply head?_str_append_left
  apply head?_str_append_left
  apply head?_str_append_left
  apply head?_str_append_left
  rfl

lemma busyReport_ne_noUsers (stats : UserStats) (name : String) :
    busyReport stats name ≠ noUsersResponse.response := by
  intro h
  have h1 := busyReport_head stats name
  rw [h] at h1
  have h2 : noUsersResponse.response.data.head? = some '📋' := rfl
  rw [h1] at h2
  simp at h2

/-- C10: `getUserStats` gives every user an entry in `tasksPerUser`
(including zero-count users); for a non-empty user table in which every
display name is non-empty, `mostBusyUser` is non-null, and the busy-user
handler returns its fixed "no users" reply exactly for the empty table. -/
theorem userStats_entries_busy_reply (users : List UserRec) :
    (∀ u ∈ users, ∃ v, ((getUserStats users).tasksPerUser).lookup u.name = some v) ∧
    ((∀ u ∈ users, u.name ≠ "") → users ≠ [] →
      (getUserStats users).mostBusyUser ≠ none ∧
      (handleBusyUserQuery (Except.ok (getUserStats users))).response
        ≠ noUsersResponse.response) ∧
    (users = [] → handleBusyUserQuery (Except.ok (getUserStats users)) = noUsersResponse) := by
  refine ⟨?_, ?_, ?_⟩
  · intro u hu
    apply lookup_isSome_of_mem_keys
    rw [getUserStats_tasksPerUser, foldl_setCount_keys]
    exact Or.inr (List.mem_map_of_mem UserRec.name hu)
  · intro hn hne
    have hperm := List.mergeSort_perm
      (users.foldl (fun a u => setCount a u.name (activeCount u)) [])
      (fun x y => decide (y.2 ≤ x.2))
    have htpne : users.foldl (fun a u => setCount a u.name (activeCount u)) [] ≠ [] := by
      cases users with
      | nil => exact absurd rfl hne
      | cons u rest =>
        simp only [List.foldl_cons]
        exact foldl_setCount_ne_nil rest _ (setCount_ne_nil [] u.name (activeCount u))
    have hsorne : (users.foldl (fun a u => setCount a u.name (activeCount u)) []).mergeSort
        (fun x y => decide (y.2 ≤ x.2)) ≠ [] := by
      intro h0
      rw [h0] at hperm
      exact htpne hperm.symm.eq_nil
    cases hsor : (users.foldl (fun a u => setCount a u.name (activeCount u)) []).mergeSort
        (fun x y => decide (y.2 ≤ x.2)) with
    | nil => exact absurd hsor hsorne
    | cons p tail =>
      obtain ⟨m, v⟩ := p
      have hmem : (m, v) ∈ users.foldl (fun a u => setCount a u.name (activeCount u)) [] := by
        apply (hperm.mem_iff).mp
        rw [hsor]
        exact List.mem_cons_self _ _
      have hm : m ≠ "" := by
        have hk : m ∈ ((users.foldl (fun a u => setCount a u.name (activeCount u)) []).map
            Prod.fst) := List.mem_map_of_mem Prod.fst hmem
        rcases (foldl_setCount_keys users [] m).mp hk with h | h
        · simp at h
        · obtain ⟨u, hu, he⟩ := List.mem_map.mp h
          exact he ▸ hn u hu
      have hms : (getUserStats users).mostBusyUser = some m := by
        rw [getUserStats_mostBusyUser, hsor]
        simp only [List.head?_cons]
        rw [if_neg hm]
      refine ⟨by rw [hms]; exact Option.some_ne_none m, ?_⟩
      show (handleBusyUserQuery (Except.ok (getUserStats users))).response
        ≠ noUsersResponse.response
      unfold handleBusyUserQuery
      dsimp only
      rw [hms]
      dsimp only
      rw [if_neg hm]
      exact busyReport_ne_noUsers (getUserStats users) m
  · intro h0
    subst h0
    have h1 : (getUserStats []).mostBusyUser = none := by
      rw [getUserStats_mostBusyUser]
      show (match (List.mergeSort [] (fun x y : String × Nat => decide (y.2 ≤ x.2))).head? with
        | none => none
        | some (n, _) => if n = "" then none else some n) = none
      rw [List.mergeSort_nil]
      rfl
    unfold handleBusyUserQuery
    dsimp only
    rw [h1]

/-- Witness for C10 at a concrete two-user table. -/
theorem userStats_entries_busy_reply_witness :
    (∀ u ∈ sampleUsers, ∃ v, ((getUserStats sampleUsers).tasksPerUser).lookup u.name = some v) ∧
    (getUserStats sampleUsers).mostBusyUser ≠ none :=
  ⟨(userStats_entries_busy_reply sampleUsers).1,
    ((userStats_entries_busy_reply sampleUsers).2.1 (by decide) (by decide)).1⟩

/-! Helper lemmas for the blocked-tasks report. -/

lemma str_prefix_extend (x : List Char) (u v : String) (h : x <+: u.data) :
    x <+: (u ++ v).data := by
  rw [String.data_append]
  exact h.trans (List.prefix_append u.data v.data)

lemma infix_str_append_right (x : List Char) (u v : String) (h : x <:+: v.data) :
    x <:+: (u ++ v).data := by
  rw [String.data_append]
  exact h.trans (List.IsSuffix.isInfix ⟨u.data, rfl⟩)

lemma infix_foldl_acc {β : Type} (f : β → String) (l : List β) :
    ∀ (init : String) (x : List Char), x <:+: init.data →
      x <:+: (l.foldl (fun acc y => acc ++ f y) init).data := by
  induction l with
  | nil => intro init x h; exact h
  | cons y rest ih =>
    intro init x h
    simp only [List.foldl_cons]
    exact ih (init ++ f y) x (infix_str_append_left x init (f y) h)

lemma infix_foldl_append {β : Type} (f : β → String) (l : List β) (p : β) (hp : p ∈ l)
    (init : String) : (f p).data <:+: (l.foldl (fun acc y => acc ++ f y) init).data := by
  induction l generalizing init with
  | nil => simp at hp
  | cons y rest ih =>
    simp only [List.foldl_cons]
    rcases List.mem_cons.mp hp with h | h
    · subst h
      apply infix_foldl_acc
      rw [String.data_append]
      exact List.IsSuffix.isInfix ⟨init.data, rfl⟩
    · exact ih h (init ++ f y)

lemma foldl_append_chars {β : Type} (f : β → String) (l : List β) (c : Char) :
    ∀ (init : String), c ∈ (l.foldl (fun acc y => acc ++ f y) init).data →
      c ∈ init.data ∨ ∃ x ∈ l, c ∈ (f x).data := by
  induction l with
  | nil => intro init hc; exact Or.inl hc
  | cons y rest ih =>
    intro init hc
    simp only [List.foldl_cons] at hc
    rcases ih (init ++ f y) hc with h | h
    · rw [String.data_append] at h
      rcases List.mem_append.mp h with h | h
      · exact Or.inl h
      · exact Or.inr ⟨y, List.mem_cons_self _ _, h⟩
    · obtain ⟨x, hx, hcx⟩ := h
      exact Or.inr ⟨x, List.mem_cons_of_mem _ hx, hcx⟩

lemma not_mem_str_append (c : Char) (u v : String) (hu : c ∉ u.data) (hv : c ∉ v.data) :
    c ∉ (u ++ v).data := by
  rw [String.data_append]
  intro h
  rcases List.mem_append.mp h with h | h
  · exact hu h
  · exact hv h

lemma digitChar_ne_tada (n : Nat) : Nat.digitChar n ≠ '🎉' := by
  by_cases h : n < 16
  · interval_cases n <;> decide
  · have h16 : Nat.digitChar n = '*' := by
      unfold Nat.digitChar
      have : ∀ m : Nat, m < 16 → n ≠ m := by omega
      rw [if_neg (this 0 (by omega)), if_neg (this 1 (by omega)), if_neg (this 2 (by omega)),
        if_neg (this 3 (by omega)), if_neg (this 4 (by omega)), if_neg (this 5 (by omega)),
        if_neg (this 6 (by omega)), if_neg (this 7 (by omega)), if_neg (this 8 (by omega)),
        if_neg (this 9 (by omega)), if_neg (this 10 (by omega)), if_neg (this 11 (by omega)),
        if_neg (this 12 (by omega)), if_neg (this 13 (by omega)), if_neg (this 14 (by omega)),
        if_neg (this 15 (by omega))]
    rw [h16]
    decide

lemma toDigitsCore_ne_tada (b : Nat) : ∀ (fuel n : Nat) (acc : List Char),
    (∀ c ∈ acc, c ≠ '🎉') → ∀ c ∈ Nat.toDigitsCore b fuel n acc, c ≠ '🎉' := by
  intro fuel
  induction fuel with
  | zero =>
    intro n acc hacc c hc
    simp only [Nat.toDigitsCore] at hc
    exact hacc c hc
  | succ f ih =>
    intro n acc hacc c hc
    simp only [Nat.toDigitsCore] at hc
    by_cases hnb : n / b = 0
    · rw [if_pos hnb] at hc
      rcases List.mem_cons.mp hc with h | h
      · exact h ▸ digitChar_ne_tada (n % b)
      · exact hacc c h
    · rw [if_neg hnb] at hc
      refine ih (n / b) ((n % b).digitChar :: acc) ?_ c hc
      intro c' hc'
      rcases List.mem_cons.mp hc' with h | h
      · exact h ▸ digitChar_ne_tada (n % b)
      · exact hacc c' h

lemma toString_nat_ne_tada (n : Nat) : ∀ c ∈ (toString n).data, c ≠ '🎉' := by
  intro c hc
  have hdata : (toString n).data = Nat.toDigits 10 n := rfl
  rw [hdata] at hc
  exact toDigitsCore_ne_tada 10 (n + 1) n [] (by simp) c hc

lemma joinComma_chars (l : List String) (c : Char) :
    c ∈ (joinComma l).data → (∃ s ∈ l, c ∈ s.data) ∨ c ∈ (", " : String).data := by
  induction l with
  | nil => intro hc; simp [joinComma] at hc
  | cons s rest ih =>
    intro hc
    cases rest with
    | nil =>
      exact Or.inl ⟨s, List.mem_cons_self _ _, by simpa [joinComma] using hc⟩
    | cons t rest' =>
      have hj : joinComma (s :: t :: rest') = s ++ ", " ++ joinComma (t :: rest') := rfl
      rw [hj, String.data_append, String.data_append] at hc
      rcases List.mem_append.mp hc with h | h
      · rcases List.mem_append.mp h with h | h
        · exact Or.inl ⟨s, List.mem_cons_self _ _, h⟩
        · exact Or.inr h
      · rcases ih h with ⟨s', hs', hcs'⟩ | h
        · exact Or.inl ⟨s', List.mem_cons_of_mem _ hs', hcs'⟩
        · exact Or.inr h

lemma blockedEntry_starts (fmtDate : Nat → String) (index : Nat) (task : Task) :
    (toString (index + 1) ++ ". **" ++ task.title ++ "**\n").data
      <+: (blockedEntry fmtDate index task).data := by
  unfold blockedEntry
  apply str_prefix_extend
  apply str_prefix_extend
  apply str_prefix_extend
  apply str_prefix_extend
  apply str_prefix_extend
  exact List.prefix_refl _

lemma blockedEntry_chars (fmtDate : Nat → String) (index : Nat) (task : Task)
    (h1 : '🎉' ∉ task.title.data)
    (h2 : ∀ d, task.description = some d → '🎉' ∉ d.data)
    (h3 : ∀ a ∈ task.assignments, '🎉' ∉ a.user.name.data)
    (h4 : '🎉' ∉ (fmtDate task.createdAt).data) :
    '🎉' ∉ (blockedEntry fmtDate index task).data := by
  have hdigits : '🎉' ∉ (toString (index + 1)).data :=
    fun h => toString_nat_ne_tada (index + 1) '🎉' h rfl
  have hdesc : '🎉' ∉ ((match task.description with
      | some d => if d = "" then "" else "   📝 " ++ d ++ "\n"
      | none => "") : String).data := by
    cases hd : task.description with
    | none => simp
    | some d =>
      by_cases hde : d = ""
      · simp [hde]
      · dsimp only
        rw [if_neg hde]
        exact not_mem_str_append _ _ _
          (not_mem_str_append _ _ _ (by decide) (h2 d hd)) (by decide)
  have hassign : '🎉' ∉ ((if task.assignments.isEmpty then ""
      else "   👥 Asignado a: " ++ joinComma (task.assignments.map (fun a => a.user.name))
        ++ "\n") : String).data := by
    by_cases ha : task.assignments.isEmpty
    · simp [ha]
    · rw [if_neg ha]
      refine not_mem_str_append _ _ _ (not_mem_str_append _ _ _ (by decide) ?_) (by decide)
      intro h
      rcases joinComma_chars _ _ h with ⟨s', hs', hcs'⟩ | h
      · obtain ⟨a, ha', he⟩ := List.mem_map.mp hs'
        exact h3 a ha' (he ▸ hcs')
      · simp at h
  unfold blockedEntry
  refine not_mem_str_append _ _ _ (not_mem_str_append _ _ _ (not_mem_str_append _ _ _
    (not_mem_str_append _ _ _ (not_mem_str_append _ _ _ (not_mem_str_append _ _ _
      (not_mem_str_append _ _ _ (not_mem_str_append _ _ _ hdigits (by decide)) h1)
        (by decide)) hdesc) hassign) (by decide)) h4) (by decide)

lemma mem_enum_of_lt {α : Type} (l : List α) (i : Nat) (h : i < l.length) :
    (i, l.get ⟨i, h⟩) ∈ l.enum := by
  rw [List.mem_enum_iff_getElem?]
  rw [List.getElem?_eq_getElem h]
  rfl

/-- celebTask is a blocked task whose title is the celebratory reply
itself. -/
def celebTask : Task :=
  { id := 1, title := noBlockedResponse.response, description := none
    status := "Blocked", createdAt := 0, assignments := [] }

/-- celebSummary is a summary whose only blocked task is `celebTask`. -/
def celebSummary : TasksSummary :=
  { total := 1, byStatus := [("Blocked", 1)], blocked := [celebTask], recentlyCompleted := [] }

/-- C8 counterexample: with a non-empty blocked list containing a task whose
title is the celebratory phrase, the enumeration embeds the phrase in the
response, so "contains the celebratory phrase" does not characterise the
empty case for every aggregator result. -/
theorem celebration_despite_blocked :
    celebSummary.blocked ≠ [] ∧
    jsIncludes (handleBlockedTasksQuery (fun _ => "") (Except.ok celebSummary)).response
      noBlockedResponse.response = true := by decide

/-- C8 amended: provided no blocked task's title, description, assignee name
or formatted creation date contains the character 🎉 (in particular the
celebratory phrase), the blocked handler returns exactly the celebratory
reply with no `actionTaken` when the blocked list is empty; when it is
non-empty the response does not contain the celebratory phrase, every
blocked task is enumerated with its 1-based index and title, and
`actionTaken = query_executed` with the blocked list is set. -/
theorem blocked_query_spec (fmtDate : Nat → String) (s : TasksSummary)
    (hclean : ∀ t ∈ s.blocked, '🎉' ∉ t.title.data ∧
      (∀ d, t.description = some d → '🎉' ∉ d.data) ∧
      (∀ a ∈ t.assignments, '🎉' ∉ a.user.name.data) ∧
      '🎉' ∉ (fmtDate t.createdAt).data) :
    (s.blocked = [] → handleBlockedTasksQuery fmtDate (Except.ok s) = noBlockedResponse ∧
      noBlockedResponse.actionTaken = none) ∧
    (s.blocked ≠ [] →
      (handleBlockedTasksQuery fmtDate (Except.ok s)).actionTaken
        = some { type := "query_executed", data := ActionData.blockedTasks s.blocked } ∧
      (∀ i (h : i < s.blocked.length),
        jsIncludes (handleBlockedTasksQuery fmtDate (Except.ok s)).response
          (toString (i + 1) ++ ". **" ++ (s.blocked.get ⟨i, h⟩).title ++ "**\n") = true) ∧
      jsIncludes (handleBlockedTasksQuery fmtDate (Except.ok s)).response
        noBlockedResponse.response = false) := by
  constructor
  · intro h0
    refine ⟨?_, rfl⟩
    unfold handleBlockedTasksQuery
    dsimp only
    rw [h0]
    rfl
  · intro hne
    have hie : s.blocked.isEmpty = false := by
      cases hbl : s.blocked with
      | nil => exact absurd hbl hne
      | cons a l => rfl
    have hred : handleBlockedTasksQuery fmtDate (Except.ok s) =
        { response := "🚫 **Tareas Bloqueadas (" ++ toString s.blocked.length ++ "):**\n\n"
            ++ s.blocked.enum.foldl (fun acc p => acc ++ blockedEntry fmtDate p.1 p.2) ""
          actionTaken := some
            { type := "query_executed", data := ActionData.blockedTasks s.blocked }
          suggestions := some
            ["Cambiar estado de tarea bloqueada",
             "Ver resumen general",
             "Crear nueva tarea"] } := by
      unfold handleBlockedTasksQuery
      dsimp only
      rw [hie]
      rfl
    rw [hred]
    have hchars : '🎉' ∉ (("🚫 **Tareas Bloqueadas (" ++ toString s.blocked.length ++ "):**\n\n"
        ++ s.blocked.enum.foldl (fun acc p => acc ++ blockedEntry fmtDate p.1 p.2) "").data) := by
      apply not_mem_str_append
      · apply not_mem_str_append
        · apply not_mem_str_append
          · decide
          · exact fun hh => toString_nat_ne_tada _ _ hh rfl
        · decide
      · intro hb
        rcases foldl_append_chars (fun p : Nat × Task => blockedEntry fmtDate p.1 p.2)
            s.blocked.enum '🎉' "" hb with h | ⟨p, hp, hcp⟩
        · simp at h
        · have hpmem : p.2 ∈ s.blocked := by
            rw [List.mem_enum_iff_getElem?] at hp
            exact List.getElem?_mem hp
          obtain ⟨hh1, hh2, hh3, hh4⟩ := hclean p.2 hpmem
          exact blockedEntry_chars fmtDate p.1 p.2 hh1 hh2 hh3 hh4 hcp
    refine ⟨rfl, ?_, ?_⟩
    · intro i h
      apply jsIncludes_of_infix
      dsimp only
      apply infix_str_append_right
      have hmem := mem_enum_of_lt s.blocked i h
      have hinf : (toString (i + 1) ++ ". **" ++ (s.blocked.get ⟨i, h⟩).title ++ "**\n").data
          <:+: (blockedEntry fmtDate i (s.blocked.get ⟨i, h⟩)).data :=
        (blockedEntry_starts fmtDate i (s.blocked.get ⟨i, h⟩)).isInfix
      exact hinf.trans (infix_foldl_append (fun p : Nat × Task => blockedEntry fmtDate p.1 p.2)
        s.blocked.enum (i, s.blocked.get ⟨i, h⟩) hmem "")
    · apply Bool.eq_false_iff.mpr
      intro hjs
      exact absurd (((containsSub_eq_true_iff _ _).mp hjs).subset
        (by decide : '🎉' ∈ noBlockedResponse.response.data)) hchars

/-- sampleBlockedSummary is a concrete summary with one ordinary blocked
task, used by the blocked-query witness. -/
def sampleBlockedSummary : TasksSummary :=
  { total := 1, byStatus := [("Blocked", 1)]
    blocked := [{ id := 3, title := "arreglar api", description := some "detalle"
                  status := "Blocked", createdAt := 0, assignments := [] }]
    recentlyCompleted := [] }

/-- Witness for the amended C8 at a concrete one-task blocked list. -/
theorem blocked_query_spec_witness :
    sampleBlockedSummary.blocked ≠ [] ∧
    (handleBlockedTasksQuery (fun _ => "1/1/2024") (Except.ok sampleBlockedSummary)).actionTaken
      = some { type := "query_executed"
               data := ActionData.blockedTasks sampleBlockedSummary.blocked } ∧
    jsIncludes
      (handleBlockedTasksQuery (fun _ => "1/1/2024") (Except.ok sampleBlockedSummary)).response
      noBlockedResponse.response = false := by
  have hcW : ∀ t ∈ sampleBlockedSummary.blocked, '🎉' ∉ t.title.data ∧
      (∀ d, t.description = some d → '🎉' ∉ d.data) ∧
      (∀ a ∈ t.assignments, '🎉' ∉ a.user.name.data) ∧
      '🎉' ∉ ((fun (_ : Nat) => "1/1/2024") t.createdAt).data := by
    intro t ht
    rcases List.mem_singleton.mp ht with rfl
    refine ⟨by decide, ?_, ?_, by decide⟩
    · intro d hd
      injection hd with hd'
      subst hd'
      decide
    · intro a ha
      simp at ha
  have h := (blocked_query_spec (fun _ => "1/1/2024") sampleBlockedSummary hcW).2 (by decide)
  exact ⟨by decide, h.1, h.2.2⟩

end DoBot
